import Mathlib

/-!
Verification of the study-dashboard core (domain model, course registry,
metrics, goal rules, goal factory, goal evaluator) against its
natural-language specification.

Shallow embedding conventions:
* Python floats (grades, ECTS) are modelled as rationals (`ℚ`).
* Dates are modelled by their ordinal day number (`ℤ`); `d₂ - d₁` is the
  Python `(d2 - d1).days`.
* `None`-able fields are `Option`s.
* In-place mutation of the `Studiengang` tree becomes explicit state
  passing: an operation takes the program and returns the new program
  (plus its Python return value).
* Python `round(x, n)` (round-half-to-even) is `pyRound` scaled by `10^n`.
-/

/-- Round half to even, as Python's builtin `round` does. -/
def pyRound (q : ℚ) : ℤ :=
  let f := ⌊q⌋
  if q - f < 1/2 then f
  else if q - f > 1/2 then f + 1
  else if f % 2 = 0 then f else f + 1

/-- Python `round(x, 2)`. -/
def round2 (q : ℚ) : ℚ := (pyRound (q * 100) : ℚ) / 100

/-- Python `round(x, 1)`. -/
def round1 (q : ℚ) : ℚ := (pyRound (q * 10) : ℚ) / 10

/-- ASCII whitespace, as stripped by Python `str.strip()`. -/
def isWsChar (c : Char) : Bool := c == ' ' || c == '\t' || c == '\n' || c == '\r'

/-- ASCII lower-casing of one character (Python `str.lower()` restricted
to the ASCII range; other characters are left unchanged). -/
def lowerChar (c : Char) : Char :=
  if 65 ≤ c.toNat ∧ c.toNat ≤ 90 then Char.ofNat (c.toNat + 32) else c

/-- Strip leading and trailing whitespace from a character list. -/
def trimList (l : List Char) : List Char :=
  ((l.dropWhile isWsChar).reverse.dropWhile isWsChar).reverse

/-- Python `(art or "").strip().lower()`. -/
def normArt (s : String) : String := String.mk ((trimList s.data).map lowerChar)

/-- `Pruefungsleistung` from `core.py`: assessment type, optional grade,
optional completion date, optional passed-without-grade flag. -/
structure Pruefungsleistung where
  art : String
  note : Option ℚ := none
  datum : Option ℤ := none
  bestanden : Option Bool := none
deriving Repr, DecidableEq

/-- `Kurs` from `core.py`. -/
structure Kurs where
  name : String
  ects : ℚ
  leistung : Pruefungsleistung := { art := "Klausur" }
  startdatum : Option ℤ := none
deriving Repr, DecidableEq

/-- `Kurs.note` property. -/
def Kurs.note (k : Kurs) : Option ℚ := k.leistung.note

/-- `Kurs.ist_bestanden` from `core.py`: if a grade is present the course
is passed iff the grade is ≤ 4.0; otherwise iff the flag is `True`. -/
def Kurs.ist_bestanden (k : Kurs) : Bool :=
  match k.leistung.note with
  | some n => decide (n ≤ 4)
  | none => k.leistung.bestanden == some true

/-- `Kurs.ist_abgeschlossen` from `core.py`. -/
def Kurs.ist_abgeschlossen (k : Kurs) : Bool :=
  k.leistung.note.isSome || k.leistung.bestanden.isSome

/-- `Modul` from `core.py`. -/
structure Modul where
  name : String
  kurse : List Kurs := []
deriving Repr, DecidableEq

/-- `Semester` from `core.py`. -/
structure Semester where
  nummer : ℤ
  module : List Modul := []
deriving Repr, DecidableEq

/-- `Studiengang` from `core.py`. -/
structure Studiengang where
  name : String
  startdatum : ℤ
  semester : List Semester := []
deriving Repr, DecidableEq

/-- All courses of the program, in the order the nested
`for semester / for modul / for kurs` loops visit them. -/
def allKurse (s : Studiengang) : List Kurs :=
  s.semester.flatMap (fun sem => sem.module.flatMap (fun m => m.kurse))

/-- The graded courses of the program (those with `note is not None`). -/
def gradedKurse (s : Studiengang) : List Kurs :=
  (allKurse s).filter (fun k => k.leistung.note.isSome)

/-- `Studiengang.durchschnitt` from `core.py`: ECTS-weighted average over
graded courses, `None` when the accumulated ECTS weight is zero, rounded
to two decimal places. -/
def Studiengang.durchschnitt (s : Studiengang) : Option ℚ :=
  let tw := ((allKurse s).map (fun k =>
    match k.leistung.note with | some n => n * k.ects | none => 0)).sum
  let te := ((allKurse s).map (fun k =>
    match k.leistung.note with | some _ => k.ects | none => 0)).sum
  if te = 0 then none else some (round2 (tw / te))

/-- `CourseManager.record_grade`: set the grade, clear the flag. -/
def record_grade (k : Kurs) (note : ℚ) : Kurs :=
  { k with leistung := { k.leistung with note := some note, bestanden := none } }

/-- `CourseManager.record_passed`: set the flag, leave the grade alone. -/
def record_passed (k : Kurs) (b : Bool) : Kurs :=
  { k with leistung := { k.leistung with bestanden := some b } }

section CoreLemmas

lemma weighted_sum_eq_graded (l : List Kurs) :
    (l.map (fun k => match k.leistung.note with | some n => n * k.ects | none => 0)).sum
      = ((l.filter (fun k => k.leistung.note.isSome)).map
          (fun k => (k.leistung.note.getD 0) * k.ects)).sum := by
  induction l with
  | nil => simp
  | cons k rest ih =>
    cases hn : k.leistung.note with
    | none => simpa [List.filter_cons, hn] using ih
    | some n => simp [List.filter_cons, hn, ih]

lemma ects_sum_eq_graded (l : List Kurs) :
    (l.map (fun k => match k.leistung.note with | some _ => k.ects | none => 0)).sum
      = ((l.filter (fun k => k.leistung.note.isSome)).map (fun k => k.ects)).sum := by
  induction l with
  | nil => simp
  | cons k rest ih =>
    cases hn : k.leistung.note with
    | none => simpa [List.filter_cons, hn] using ih
    | some n => simp [List.filter_cons, hn, ih]

end CoreLemmas

/-- C4 (corrected): `ist_bestanden` is true iff a grade ≤ 4.0 is present,
or no grade is present and the flag is `True`.  A present grade takes
precedence over the flag. -/
theorem ist_bestanden_characterisation (k : Kurs) :
    k.ist_bestanden = true ↔
      ((∃ n, k.leistung.note = some n ∧ n ≤ 4) ∨
        (k.leistung.note = none ∧ k.leistung.bestanden = some true)) := by
  unfold Kurs.ist_bestanden
  cases hn : k.leistung.note with
  | none =>
    cases hb : k.leistung.bestanden with
    | none => simp [hb]
    | some b => cases b <;> simp [hb]
  | some n =>
    constructor
    · intro h
      exact Or.inl ⟨n, rfl, by simpa using h⟩
    · rintro (⟨m, hm, hle⟩ | ⟨hnone, _⟩)
      · cases hm
        simpa using hle
      · cases hnone

/-- The course refuting claim C4: grade `5.0` present and
passed-without-grade flag `True`. -/
def kursC4 : Kurs :=
  { name := "K", ects := 5,
    leistung := { art := "Klausur", note := some 5, bestanden := some true } }

/-- C4 counterexample: for a course with grade 5.0 and flag `True`, the
claim's predicate `(grade present ∧ grade ≤ 4.0) ∨ flag = True` holds,
yet `ist_bestanden` returns `false`: the claimed equivalence fails. -/
theorem ist_bestanden_claim_false :
    kursC4.leistung.bestanden = some true ∧ kursC4.ist_bestanden = false ∧
      ¬(kursC4.ist_bestanden = true ↔
        ((∃ n, kursC4.leistung.note = some n ∧ n ≤ 4) ∨
          kursC4.leistung.bestanden = some true)) := by
  refine ⟨rfl, by decide, fun h => ?_⟩
  have : kursC4.ist_bestanden = true := h.mpr (Or.inr rfl)
  simp [kursC4, Kurs.ist_bestanden] at this
  norm_num at this

/-- C10 (confirmed): `record_grade` sets the grade and clears the flag;
`record_passed` sets the flag and leaves the grade untouched; hence
`record_grade` then `record_passed` has the flag set and the grade
unchanged, while `record_passed` then `record_grade` leaves only the
grade set. -/
theorem record_grade_record_passed_spec (k : Kurs) (g : ℚ) (b : Bool) :
    (record_grade k g).leistung.note = some g ∧
      (record_grade k g).leistung.bestanden = none ∧
      (record_passed k b).leistung.bestanden = some b ∧
      (record_passed k b).leistung.note = k.leistung.note ∧
      (record_passed (record_grade k g) b).leistung.bestanden = some b ∧
      (record_passed (record_grade k g) b).leistung.note = some g ∧
      (record_grade (record_passed k b) g).leistung.note = some g ∧
      (record_grade (record_passed k b) g).leistung.bestanden = none := by
  refine ⟨rfl, rfl, rfl, rfl, rfl, rfl, rfl, rfl⟩

/-- C6 (corrected): the weighted average is `None` when no course is
graded; with exactly one graded course of nonzero ECTS weight it is that
course's grade rounded to two decimals.  (With ECTS weight 0 the code
returns `None` instead — see the counterexample.) -/
theorem durchschnitt_single_graded (s : Studiengang) :
    (gradedKurse s = [] → s.durchschnitt = none) ∧
      (∀ k n, gradedKurse s = [k] → k.leistung.note = some n → k.ects ≠ 0 →
        s.durchschnitt = some (round2 n)) := by
  constructor
  · intro h
    unfold Studiengang.durchschnitt
    rw [ects_sum_eq_graded]
    have h2 : List.filter (fun k => k.leistung.note.isSome) (allKurse s) = [] := h
    rw [h2]
    simp
  · intro k n hk hn hne
    unfold Studiengang.durchschnitt
    rw [ects_sum_eq_graded, weighted_sum_eq_graded]
    simp only [gradedKurse] at hk
    rw [hk]
    simp only [List.map_cons, List.map_nil, List.sum_cons, List.sum_nil, add_zero, hn]
    rw [if_neg hne]
    congr 1
    rw [Option.getD_some]
    field_simp

/-- A program with a single graded course of ECTS weight 0. -/
def studC6 : Studiengang :=
  Studiengang.mk "S" 0
    [Semester.mk 1
      [Modul.mk "M"
        [Kurs.mk "K" 0 (Pruefungsleistung.mk "Klausur" (some 2) none none) none]]]

/-- C6 counterexample: the program `studC6` has exactly one graded course,
whose grade is 2.0 and whose ECTS weight is 0; the claim says the average
equals that grade, but `durchschnitt` returns `None`. -/
theorem durchschnitt_zero_ects_counterexample :
    (gradedKurse studC6).length = 1 ∧
      (gradedKurse studC6).map Kurs.note = [some 2] ∧
      studC6.durchschnitt = none ∧ studC6.durchschnitt ≠ some (round2 2) := by
  have h : studC6.durchschnitt = none := by
    simp [studC6, Studiengang.durchschnitt, allKurse]
  exact ⟨by decide, by decide, h, by rw [h]; exact fun hc => Option.noConfusion hc⟩

/-- The target configuration consumed by the metrics pass
(`total_ects`, `total_exams` from the config). -/
structure Targets where
  total_ects : ℚ
  total_exams : ℤ
deriving Repr, DecidableEq

/-- The loop accumulators of `compute_dashboard_metrics` in
`routes/main.py`. -/
structure MetricsAcc where
  total_courses : ℕ := 0
  graded_courses : ℕ := 0
  completed_courses : ℕ := 0
  ects_earned : ℚ := 0
  ones : ℕ := 0
  klausur_durations : List ℤ := []
  sonstige_durations : List ℤ := []
deriving Repr, DecidableEq

/-- One iteration of the `for kurs in modul.kurse` loop body of
`compute_dashboard_metrics`. -/
def metricsStep (acc : MetricsAcc) (k : Kurs) : MetricsAcc :=
  let acc1 := { acc with total_courses := acc.total_courses + 1 }
  let acc2 :=
    match k.leistung.note with
    | some n =>
        { acc1 with graded_courses := acc1.graded_courses + 1,
                    ones := if n = 1 then acc1.ones + 1 else acc1.ones }
    | none => acc1
  let acc3 :=
    if k.ist_bestanden then
      { acc2 with completed_courses := acc2.completed_courses + 1,
                  ects_earned := acc2.ects_earned + k.ects }
    else acc2
  match k.startdatum, k.leistung.datum with
  | some sd, some d =>
      if k.ist_abgeschlossen then
        if normArt k.leistung.art = "klausur" then
          { acc3 with klausur_durations := acc3.klausur_durations ++ [d - sd] }
        else
          { acc3 with sonstige_durations := acc3.sonstige_durations ++ [d - sd] }
      else acc3
  | _, _ => acc3

/-- The dashboard metrics record returned by `compute_dashboard_metrics`. -/
structure Metrics where
  total_courses : ℕ
  graded_courses : ℕ
  completed_courses : ℕ
  ects_earned : ℚ
  ects_total : ℚ
  ects_progress : ℤ
  exams_total : ℤ
  ones : ℕ
  avg_klausur_days : Option ℤ
  avg_sonstige_days : Option ℤ
  excell_ratio : ℚ
  avg : Option ℚ
deriving Repr, DecidableEq

/-- `compute_dashboard_metrics` from `routes/main.py`: a single
accumulation pass over the whole tree followed by the derived ratios. -/
def compute_dashboard_metrics (s : Studiengang) (targets : Targets) : Metrics :=
  let acc := (allKurse s).foldl metricsStep {}
  let avg_klausur_days :=
    if acc.klausur_durations.isEmpty then none
    else some (pyRound ((acc.klausur_durations.sum : ℚ) / acc.klausur_durations.length))
  let avg_sonstige_days :=
    if acc.sonstige_durations.isEmpty then none
    else some (pyRound ((acc.sonstige_durations.sum : ℚ) / acc.sonstige_durations.length))
  let excell_ratio := if 0 < acc.graded_courses then (acc.ones : ℚ) / acc.graded_courses else 0
  let ects_progress :=
    if 0 < targets.total_ects then pyRound (acc.ects_earned / targets.total_ects * 100) else 0
  { total_courses := acc.total_courses
    graded_courses := acc.graded_courses
    completed_courses := acc.completed_courses
    ects_earned := acc.ects_earned
    ects_total := targets.total_ects
    ects_progress := ects_progress
    exams_total := targets.total_exams
    ones := acc.ones
    avg_klausur_days := avg_klausur_days
    avg_sonstige_days := avg_sonstige_days
    excell_ratio := excell_ratio
    avg := s.durchschnitt }

lemma metricsStep_completed (acc : MetricsAcc) (k : Kurs) :
    (metricsStep acc k).completed_courses =
      acc.completed_courses + (if k.ist_bestanden then 1 else 0) := by
  unfold metricsStep
  cases hn : k.leistung.note <;>
    cases hsd : k.startdatum <;> cases hd : k.leistung.datum <;>
      cases hb : k.ist_bestanden <;>
        (try dsimp only) <;>
          first
            | rfl
            | (split <;> rfl)
            | (split <;> (first | rfl | (split <;> rfl)))

lemma foldl_metricsStep_completed (l : List Kurs) (acc : MetricsAcc) :
    (l.foldl metricsStep acc).completed_courses =
      acc.completed_courses + l.countP (fun k => k.ist_bestanden) := by
  induction l generalizing acc with
  | nil => simp
  | cons k rest ih =>
    rw [List.foldl_cons, ih, metricsStep_completed, List.countP_cons]
    by_cases hb : k.ist_bestanden <;> simp [hb] <;> omega

/-- C3 (corrected): the completed-course count reported by the metrics
pass equals the number of *passed* courses (`ist_bestanden`), not the
number of completed courses (`ist_abgeschlossen`). -/
theorem completed_courses_counts_passed (s : Studiengang) (targets : Targets) :
    (compute_dashboard_metrics s targets).completed_courses =
      (allKurse s).countP (fun k => k.ist_bestanden) := by
  unfold compute_dashboard_metrics
  simpa using foldl_metricsStep_completed (allKurse s) {}

/-- A program with one graded-but-failed course (grade 5.0): completed
but not passed. -/
def studC3 : Studiengang :=
  Studiengang.mk "S" 0
    [Semester.mk 1
      [Modul.mk "M"
        [Kurs.mk "K" 5 (Pruefungsleistung.mk "Klausur" (some 5) none none) none]]]

/-- Example targets record (the seeded configuration's values). -/
def targetsEx : Targets := Targets.mk 180 36

/-- C3 counterexample: `studC3` has exactly one completed course
(grade 5.0 present, hence `ist_abgeschlossen`), but the metrics pass
reports a completed-course count of 0, because the code counts
`ist_bestanden` courses instead. -/
theorem completed_courses_counterexample :
    (allKurse studC3).countP (fun k => k.ist_abgeschlossen) = 1 ∧
      (compute_dashboard_metrics studC3 targetsEx).completed_courses = 0 ∧
      (compute_dashboard_metrics studC3 targetsEx).completed_courses ≠
        (allKurse studC3).countP (fun k => k.ist_abgeschlossen) := by
  refine ⟨by decide, ?_, ?_⟩ <;>
    · simp [compute_dashboard_metrics, studC3, allKurse, metricsStep, Kurs.ist_bestanden,
        Kurs.ist_abgeschlossen, normArt]
      norm_num

/-- The per-course check of `_KursdauerBasisZiel.pruefe` in `goals.py`:
a course passes the check unless it has both dates, is completed, its
normalised assessment type matches the predicate, and its duration
exceeds the limit. -/
def kursdauerCheck (maxTage : ℤ) (p : String → Bool) (k : Kurs) : Bool :=
  match k.startdatum, k.leistung.datum with
  | some sd, some d =>
      if !k.ist_abgeschlossen then true
      else if !p (normArt k.leistung.art) then true
      else decide (d - sd ≤ maxTage)
  | _, _ => true

/-- `_KursdauerBasisZiel.pruefe` from `goals.py`: fails as soon as one
matching course exceeds the limit, passes otherwise. -/
def kursdauerPruefe (maxTage : ℤ) (p : String → Bool) (s : Studiengang) : Bool :=
  (allKurse s).all (kursdauerCheck maxTage p)

/-- The goal-rule family of `goals.py` as a tagged variant: each rule kind
holds its constructor parameters. -/
inductive Ziel where
  | studienzeitziel (max_jahre : ℚ)
  | notenziel (max_durchschnitt : ℚ)
  | exzellenzziel (mindestanteil : ℚ)
  | kursdauerKlausurZiel (max_tage : ℤ)
  | kursdauerSonstigeZiel (max_tage : ℤ)
  | kursdauerZiel (max_tage_klausur max_tage_sonstige : ℤ)
deriving Repr, DecidableEq

/-- `z.__class__.__name__`, the dictionary key used by the evaluator. -/
def Ziel.className : Ziel → String
  | .studienzeitziel _ => "Studienzeitziel"
  | .notenziel _ => "Notenziel"
  | .exzellenzziel _ => "ExzellenzZiel"
  | .kursdauerKlausurZiel _ => "KursdauerKlausurZiel"
  | .kursdauerSonstigeZiel _ => "KursdauerSonstigeZiel"
  | .kursdauerZiel _ _ => "KursdauerZiel"

/-- `Ziel.pruefe` from `goals.py`.  `Studienzeitziel` reads the wall
clock (`date.today()`), made explicit as the `today` parameter. -/
def Ziel.pruefe (today : ℤ) (z : Ziel) (s : Studiengang) : Bool :=
  match z with
  | .studienzeitziel mj => decide (((today - s.startdatum : ℤ) : ℚ) / (1461/4) ≤ mj)
  | .notenziel md =>
      match s.durchschnitt with
      | none => false
      | some avg => decide (round1 avg ≤ round1 md)
  | .exzellenzziel ma =>
      let gesamt := (gradedKurse s).length
      let einsen := ((allKurse s).filter (fun k => k.leistung.note == some 1)).length
      decide (0 < gesamt ∧ ma ≤ (einsen : ℚ) / gesamt)
  | .kursdauerKlausurZiel mt => kursdauerPruefe mt (fun art => art == "klausur") s
  | .kursdauerSonstigeZiel mt => kursdauerPruefe mt (fun art => art != "klausur") s
  | .kursdauerZiel mk ms =>
      kursdauerPruefe mk (fun art => art == "klausur") s &&
        kursdauerPruefe ms (fun art => art != "klausur") s

/-- C9 (confirmed): the course-duration rule passes iff every completed
course with both dates whose normalised assessment type satisfies the
predicate has duration at most the limit; vacuously true when no course
matches, false as soon as one matching course exceeds the limit. -/
theorem kursdauer_pruefe_iff (maxTage : ℤ) (p : String → Bool) (s : Studiengang) :
    kursdauerPruefe maxTage p s = true ↔
      ∀ k ∈ allKurse s, ∀ sd d, k.startdatum = some sd → k.leistung.datum = some d →
        k.ist_abgeschlossen = true → p (normArt k.leistung.art) = true →
          d - sd ≤ maxTage := by
  unfold kursdauerPruefe
  rw [List.all_eq_true]
  constructor
  · intro h k hk sd d hsd hd hab hp
    have hc := h k hk
    unfold kursdauerCheck at hc
    rw [hsd, hd] at hc
    simp only [hab, hp, Bool.not_true, if_false, Bool.false_eq_true, ite_false] at hc
    simpa using hc
  · intro h k hk
    unfold kursdauerCheck
    cases hsd : k.startdatum with
    | none => rfl
    | some sd =>
      cases hd : k.leistung.datum with
      | none => rfl
      | some d =>
        cases hab : k.ist_abgeschlossen with
        | false => rfl
        | true =>
          cases hp : p (normArt k.leistung.art) with
          | false => rfl
          | true => simpa using h k hk sd d hsd hd hab hp

/-- A program exercising the duration rule: one completed course of type
"Klausur", 20 days long, and one 22 days long. -/
def studC9 (dur : ℤ) : Studiengang :=
  Studiengang.mk "S" 0
    [Semester.mk 1
      [Modul.mk "M"
        [Kurs.mk "K" 5 (Pruefungsleistung.mk "Klausur" (some 2) (some (100 + dur)) none) (some 100)]]]

/-- C9 witness: with a 21-day limit the exam-duration rule passes the
20-day course and fails the 22-day course. -/
theorem kursdauer_pruefe_iff_witness :
    (kursdauerPruefe 21 (fun art => art == "klausur") (studC9 20) = true ↔
        ∀ k ∈ allKurse (studC9 20), ∀ sd d, k.startdatum = some sd →
          k.leistung.datum = some d → k.ist_abgeschlossen = true →
            (fun art => art == "klausur") (normArt k.leistung.art) = true →
              d - sd ≤ 21) ∧
      kursdauerPruefe 21 (fun art => art == "klausur") (studC9 20) = true ∧
      kursdauerPruefe 21 (fun art => art == "klausur") (studC9 22) = false := by
  refine ⟨kursdauer_pruefe_iff 21 (fun art => art == "klausur") (studC9 20), ?_, ?_⟩ <;> decide

/-- The `ziele` section of the configuration mapping, as consumed by
`GoalFactory.from_config`.  `some p` means the key is present with
parameter mapping `p`; an inner `none` means the parameter is absent and
the constructor default applies (`mindestanteil = 0.10`, `max_tage = 21`
resp. `42`). -/
structure ZieleConfig where
  studienzeitziel : Option ℚ := none
  notenziel : Option ℚ := none
  exzellenzziel : Option (Option ℚ) := none
  kursdauer_klausur_ziel : Option (Option ℤ) := none
  kursdauer_sonstige_ziel : Option (Option ℤ) := none
  kursdauerziel : Option (Option ℤ × Option ℤ) := none
deriving Repr, DecidableEq

namespace GoalFactory

/-- `GoalFactory.from_config` from `services.py`: explicit specialized
duration keys first, then the legacy combined key fans out into both
specialized rules unless *both* explicit keys are present, then the
remaining mapped goal kinds. -/
def from_config (z : ZieleConfig) : List Ziel :=
  let explicit_klausur := z.kursdauer_klausur_ziel.isSome
  let explicit_sonstige := z.kursdauer_sonstige_ziel.isSome
  let g1 :=
    match z.kursdauer_klausur_ziel with
    | some p => [Ziel.kursdauerKlausurZiel (p.getD 21)]
    | none => []
  let g2 :=
    match z.kursdauer_sonstige_ziel with
    | some p => [Ziel.kursdauerSonstigeZiel (p.getD 42)]
    | none => []
  let g3 :=
    match z.kursdauerziel with
    | some kd =>
        if !(explicit_klausur && explicit_sonstige) then
          [Ziel.kursdauerKlausurZiel (kd.1.getD 21),
            Ziel.kursdauerSonstigeZiel (kd.2.getD 42)]
        else []
    | none => []
  let g4 :=
    (match z.studienzeitziel with
      | some mj => [Ziel.studienzeitziel mj]
      | none => []) ++
    (match z.notenziel with
      | some md => [Ziel.notenziel md]
      | none => []) ++
    (match z.exzellenzziel with
      | some ma => [Ziel.exzellenzziel (ma.getD (1/10))]
      | none => [])
  g1 ++ g2 ++ g3 ++ g4

end GoalFactory

/-- Is a rule the exam-duration kind (`KursdauerKlausurZiel`)? -/
def isKlausurRule : Ziel → Bool
  | .kursdauerKlausurZiel _ => true
  | _ => false

/-- Is a rule the other-duration kind (`KursdauerSonstigeZiel`)? -/
def isSonstigeRule : Ziel → Bool
  | .kursdauerSonstigeZiel _ => true
  | _ => false

/-- C1 (corrected): exact counts of the two specialized duration rules
produced by `from_config`.  The exam-duration rule appears once for the
explicit key plus once more for the legacy fan-out, which fires whenever
the legacy key is present and not *both* explicit keys are; symmetrically
for the other-duration rule.  Exactly-once-each holds for the legacy key
alone and for both explicit keys together, but not when exactly one
explicit key accompanies the legacy key (a duplicated kind) nor when a
single explicit key stands alone (the other kind is absent). -/
theorem from_config_duration_rule_counts (z : ZieleConfig) :
    (GoalFactory.from_config z).countP isKlausurRule =
      ((if z.kursdauer_klausur_ziel.isSome then 1 else 0) +
        (if z.kursdauerziel.isSome &&
            !(z.kursdauer_klausur_ziel.isSome && z.kursdauer_sonstige_ziel.isSome)
          then 1 else 0)) ∧
    (GoalFactory.from_config z).countP isSonstigeRule =
      ((if z.kursdauer_sonstige_ziel.isSome then 1 else 0) +
        (if z.kursdauerziel.isSome &&
            !(z.kursdauer_klausur_ziel.isSome && z.kursdauer_sonstige_ziel.isSome)
          then 1 else 0)) := by
  unfold GoalFactory.from_config
  cases hk : z.kursdauer_klausur_ziel <;>
    cases hs : z.kursdauer_sonstige_ziel <;>
      cases hl : z.kursdauerziel <;>
        cases hz1 : z.studienzeitziel <;>
          cases hz2 : z.notenziel <;>
            cases hz3 : z.exzellenzziel <;>
              simp [List.countP_append, List.countP_cons, isKlausurRule, isSonstigeRule,
                List.countP_nil]

/-- The configuration refuting claim C1: the explicit exam-duration key
(with `max_tage = 10`) together with the legacy combined key. -/
def configC1 : ZieleConfig :=
  { kursdauer_klausur_ziel := some (some 10),
    kursdauerziel := some (some 21, some 42) }

/-- C1 counterexample: with the explicit exam key and the legacy key both
present (and no explicit other key), the rule list contains the
exam-duration rule twice — once from the explicit key and once from the
legacy fan-out — not exactly once as claimed. -/
theorem from_config_duplicate_counterexample :
    configC1.kursdauer_klausur_ziel.isSome = true ∧
      configC1.kursdauerziel.isSome = true ∧
      GoalFactory.from_config configC1 =
        [Ziel.kursdauerKlausurZiel 10, Ziel.kursdauerKlausurZiel 21,
          Ziel.kursdauerSonstigeZiel 42] ∧
      (GoalFactory.from_config configC1).countP isKlausurRule = 2 := by
  refine ⟨rfl, rfl, rfl, by decide⟩

/-- `GoalEvaluator.bewerte` from `services.py`: the association list
underlying the dict comprehension, in rule order. -/
def bewerte (today : ℤ) (ziele : List Ziel) (s : Studiengang) : List (String × Bool) :=
  ziele.map (fun z => (z.className, z.pruefe today s))

/-- Lookup in the dict built by the comprehension: the *last* binding of
a key wins, keys never bound are absent. -/
def dictLookup (l : List (String × Bool)) (key : String) : Option Bool :=
  (l.reverse.find? (fun p => p.1 == key)).map (fun p => p.2)

/-- C2 (amended): when the rules in the list have pairwise-distinct kind
names, the evaluator's mapping binds each rule's kind name to that rule's
own result, so no result is lost. -/
theorem bewerte_distinct_kinds (today : ℤ) (ziele : List Ziel) (s : Studiengang)
    (h : (ziele.map Ziel.className).Nodup) :
    ∀ z ∈ ziele,
      dictLookup (bewerte today ziele s) z.className = some (Ziel.pruefe today z s) := by
  intro z hz
  unfold dictLookup bewerte
  rw [← List.map_reverse, List.find?_map]
  have hex : (ziele.reverse.find?
      ((fun p => p.1 == z.className) ∘ fun x => (x.className, Ziel.pruefe today x s))).isSome := by
    rw [List.find?_isSome]
    exact ⟨z, List.mem_reverse.mpr hz, by simp [Function.comp]⟩
  cases hfind : ziele.reverse.find?
      ((fun p => p.1 == z.className) ∘ fun x => (x.className, Ziel.pruefe today x s)) with
  | none => rw [hfind] at hex; simp at hex
  | some x =>
    have hxmem : x ∈ ziele := List.mem_reverse.mp (List.mem_of_find?_eq_some hfind)
    have hxpred := List.find?_some hfind
    have hxcls : x.className = z.className := by
      simpa [Function.comp] using hxpred
    have hxz : x = z := List.inj_on_of_nodup_map h hxmem hz hxcls
    simp [hxz]

/-- The empty program (used as a concrete snapshot in witnesses). -/
def studLeer : Studiengang := Studiengang.mk "S" 0 []

/-- C2 witness: a one-rule list with distinct kind names, evaluated on
the empty program, reports that rule's (failing) grade-average result. -/
theorem bewerte_distinct_kinds_witness :
    ([Ziel.notenziel 2].map Ziel.className).Nodup ∧
      dictLookup (bewerte 0 [Ziel.notenziel 2] studLeer) (Ziel.notenziel 2).className =
        some (Ziel.pruefe 0 (Ziel.notenziel 2) studLeer) :=
  ⟨by decide,
    bewerte_distinct_kinds 0 [Ziel.notenziel 2] studLeer (by decide)
      (Ziel.notenziel 2) (by simp)⟩

/-- Two rules of the same kind with different limits. -/
def zieleC2 : List Ziel :=
  [Ziel.kursdauerKlausurZiel 0, Ziel.kursdauerKlausurZiel 100]

/-- A program with one completed 50-day exam-type course. -/
def studC2 : Studiengang :=
  Studiengang.mk "S" 0
    [Semester.mk 1
      [Modul.mk "M"
        [Kurs.mk "K" 5 (Pruefungsleistung.mk "Klausur" (some 2) (some 150) none) (some 100)]]]

/-- C2 counterexample: with two `KursdauerKlausurZiel` rules in the list
(limits 0 and 100 days) and a 50-day course, the first rule's result
(`false`) is lost — the dict comprehension keeps only the last rule's
result (`true`) under the shared kind name. -/
theorem bewerte_overwrite_counterexample :
    Ziel.kursdauerKlausurZiel 0 ∈ zieleC2 ∧
      Ziel.pruefe 0 (Ziel.kursdauerKlausurZiel 0) studC2 = false ∧
      dictLookup (bewerte 0 zieleC2 studC2) (Ziel.kursdauerKlausurZiel 0).className =
        some true := by
  refine ⟨by decide, by decide, by decide⟩

/-- Replace the first element satisfying `p` by its image under `f`
(Python mutates the object returned by a linear `find`). -/
def updateFirst {α : Type} (p : α → Bool) (f : α → α) : List α → List α
  | [] => []
  | x :: xs => if p x then f x :: xs else x :: updateFirst p f xs

/-- `CourseManager._find_semester`. -/
def find_semester (s : Studiengang) (nr : ℤ) : Option Semester :=
  s.semester.find? (fun x => x.nummer == nr)

/-- `CourseManager._find_modul`. -/
def find_modul (sem : Semester) (mname : String) : Option Modul :=
  sem.module.find? (fun m => m.name == mname)

/-- `CourseManager._find_kurs`. -/
def find_kurs_in (m : Modul) (kname : String) : Option Kurs :=
  m.kurse.find? (fun k => k.name == kname)

/-- `CourseManager.find_kurs`: resolve a (semester number, module name,
course name) identity triple. -/
def find_kurs (s : Studiengang) (nr : ℤ) (mname kname : String) : Option Kurs :=
  match find_semester s nr with
  | none => none
  | some sem =>
      match find_modul sem mname with
      | none => none
      | some m => find_kurs_in m kname

/-- The module resolved by the (semester number, module name) pair. -/
def moduleAt (s : Studiengang) (nr : ℤ) (mname : String) : Option Modul :=
  match find_semester s nr with
  | none => none
  | some sem => find_modul sem mname

/-- Mutate the first semester with the given number in place. -/
def updateSemester (s : Studiengang) (nr : ℤ) (f : Semester → Semester) : Studiengang :=
  { s with semester := updateFirst (fun x => x.nummer == nr) f s.semester }

/-- Mutate the first module with the given name inside the first
semester with the given number in place. -/
def updateModul (s : Studiengang) (nr : ℤ) (mname : String) (f : Modul → Modul) : Studiengang :=
  updateSemester s nr
    (fun sem => { sem with module := updateFirst (fun m => m.name == mname) f sem.module })

/-- `CourseManager.add_modul`: find or create the semester, then find or
create the module inside it.  (The Python function also returns the
module; the returned module is precisely `moduleAt` of the result.) -/
def add_modul (s : Studiengang) (nr : ℤ) (mname : String) : Studiengang :=
  match find_semester s nr with
  | none => { s with semester := s.semester ++ [Semester.mk nr [Modul.mk mname []]] }
  | some sem =>
      match find_modul sem mname with
      | some _ => s
      | none =>
          updateSemester s nr (fun x => { x with module := x.module ++ [Modul.mk mname []] })

/-- `CourseManager.add_kurs` (module level, as in the source): idempotent
by course name; a new course starts with a bare performance record. -/
def add_kurs (m : Modul) (kname : String) (ects : ℚ) (art : String) (sd : Option ℤ) : Modul :=
  match find_kurs_in m kname with
  | some _ => m
  | none =>
      { m with kurse := m.kurse ++ [Kurs.mk kname ects (Pruefungsleistung.mk art none none none) sd] }

/-- Program-level `add_kurs`: `CourseManager.add_kurs` applied to the
module returned by `add_modul`, as the route handlers do. -/
def add_kurs_prog (s : Studiengang) (nr : ℤ) (mname kname : String) (ects : ℚ)
    (art : String) (sd : Option ℤ) : Studiengang :=
  updateModul (add_modul s nr mname) nr mname (fun m => add_kurs m kname ects art sd)

/-- Mutate the course resolved by an identity triple in place (no-op when
the triple does not resolve), as the record-grade route does after
`find_kurs`. -/
def update_kurs (s : Studiengang) (nr : ℤ) (mname kname : String) (f : Kurs → Kurs) : Studiengang :=
  updateModul s nr mname
    (fun m => { m with kurse := updateFirst (fun k => k.name == kname) f m.kurse })

/-- Program-level `record_grade` on the course resolved by a triple. -/
def record_grade_prog (s : Studiengang) (nr : ℤ) (mname kname : String) (g : ℚ) : Studiengang :=
  update_kurs s nr mname kname (fun k => record_grade k g)

/-- Program-level `record_passed` on the course resolved by a triple. -/
def record_passed_prog (s : Studiengang) (nr : ℤ) (mname kname : String) (b : Bool) : Studiengang :=
  update_kurs s nr mname kname (fun k => record_passed k b)

/-- `CourseManager.delete_kurs`: returns whether a course was removed,
filtering the named courses out of the resolved module and cascading
empty-container cleanup. -/
def delete_kurs (s : Studiengang) (nr : ℤ) (mname kname : String) : Bool × Studiengang :=
  match find_semester s nr with
  | none => (false, s)
  | some sem =>
      match find_modul sem mname with
      | none => (false, s)
      | some m =>
          let newKurse := m.kurse.filter (fun k => !(k.name == kname))
          let ret := decide (newKurse.length < m.kurse.length)
          if newKurse.isEmpty then
            let newModule := sem.module.filter (fun x => !(x.name == mname))
            if newModule.isEmpty then
              (ret, { s with semester := s.semester.filter (fun x => !(x.nummer == nr)) })
            else
              (ret, updateSemester s nr (fun x => { x with module := newModule }))
          else
            (ret, updateModul s nr mname (fun x => { x with kurse := newKurse }))

/-- The removal half of `CourseManager.move_kurs`: drop the named courses
from the source module and clean up now-empty containers. -/
def removePhase (s : Studiengang) (fromSem : ℤ) (fromMod kname : String) : Studiengang :=
  match find_semester s fromSem with
  | none => s
  | some oldSem =>
      match find_modul oldSem fromMod with
      | none => s
      | some oldMod =>
          let newKurse := oldMod.kurse.filter (fun k => !(k.name == kname))
          if newKurse.isEmpty then
            let newModule := oldSem.module.filter (fun m => !(m.name == fromMod))
            if newModule.isEmpty then
              { s with semester := s.semester.filter (fun x => !(x.nummer == fromSem)) }
            else
              updateSemester s fromSem (fun x => { x with module := newModule })
          else
            updateModul s fromSem fromMod (fun m => { m with kurse := newKurse })

/-- The insertion half of `CourseManager.move_kurs`: create the
destination semester/module on demand and append the course. -/
def insertPhase (s : Studiengang) (toSem : ℤ) (toMod : String) (kurs : Kurs) : Studiengang :=
  match find_semester s toSem with
  | none => { s with semester := s.semester ++ [Semester.mk toSem [Modul.mk toMod [kurs]]] }
  | some destSem =>
      match find_modul destSem toMod with
      | none =>
          updateSemester s toSem
            (fun x => { x with module := x.module ++ [Modul.mk toMod [kurs]] })
      | some _ => updateModul s toSem toMod (fun m => { m with kurse := m.kurse ++ [kurs] })

/-- `CourseManager.move_kurs`: find the course, remove it from the
source, insert it at the destination; `none` when the source triple does
not resolve. -/
def move_kurs (s : Studiengang) (fromSem : ℤ) (fromMod kname : String)
    (toSem : ℤ) (toMod : String) : Option (Kurs × Studiengang) :=
  match find_kurs s fromSem fromMod kname with
  | none => none
  | some kurs => some (kurs, insertPhase (removePhase s fromSem fromMod kname) toSem toMod kurs)

section UpdateFirstLemmas

variable {α : Type}

lemma updateFirst_eq_self {p : α → Bool} {f : α → α} {l : List α} {a : α}
    (hfind : l.find? p = some a) (hfa : f a = a) : updateFirst p f l = l := by
  induction l with
  | nil => simp at hfind
  | cons x xs ih =>
    by_cases hx : p x
    · rw [List.find?_cons_of_pos _ hx] at hfind
      cases hfind
      simp [updateFirst, hx, hfa]
    · rw [List.find?_cons_of_neg _ hx] at hfind
      simp [updateFirst, hx, ih hfind]

lemma find?_updateFirst_self {p : α → Bool} {f : α → α}
    (hp : ∀ x, p x = true → p (f x) = true) (l : List α) :
    (updateFirst p f l).find? p = (l.find? p).map f := by
  induction l with
  | nil => simp [updateFirst]
  | cons x xs ih =>
    by_cases hx : p x
    · simp [updateFirst, hx, List.find?_cons_of_pos _ (hp x hx),
        List.find?_cons_of_pos _ hx]
    · simp [updateFirst, hx, List.find?_cons_of_neg _ hx, ih]

lemma find?_updateFirst_of_disjoint {r p : α → Bool} {f : α → α}
    (h : ∀ x, r x = true → p x = false) (hf : ∀ x, r x = true → p (f x) = false)
    (l : List α) : (updateFirst r f l).find? p = l.find? p := by
  induction l with
  | nil => simp [updateFirst]
  | cons x xs ih =>
    by_cases hx : r x
    · have h1 : ¬(p (f x) = true) := by simp [hf x hx]
      have h2 : ¬(p x = true) := by simp [h x hx]
      simp [updateFirst, hx, List.find?_cons_of_neg _ h1, List.find?_cons_of_neg _ h2]
    · by_cases hpx : p x
      · simp [updateFirst, hx, List.find?_cons_of_pos _ hpx]
      · simp [updateFirst, hx, List.find?_cons_of_neg _ hpx, ih]

lemma mem_updateFirst {p : α → Bool} {f : α → α} (l : List α) :
    ∀ y ∈ updateFirst p f l, y ∈ l ∨ ∃ x ∈ l, p x = true ∧ y = f x := by
  induction l with
  | nil => intro y hy; simp [updateFirst] at hy
  | cons x xs ih =>
    intro y hy
    unfold updateFirst at hy
    by_cases hx : p x
    · rw [if_pos hx] at hy
      rcases List.mem_cons.mp hy with hy1 | hy1
      · exact Or.inr ⟨x, List.mem_cons_self x xs, hx, hy1⟩
      · exact Or.inl (List.mem_cons_of_mem x hy1)
    · rw [if_neg hx] at hy
      rcases List.mem_cons.mp hy with hy1 | hy1
      · exact Or.inl (hy1 ▸ List.mem_cons_self x xs)
      · rcases ih y hy1 with h1 | ⟨z, hz, hpz, hyz⟩
        · exact Or.inl (List.mem_cons_of_mem x h1)
        · exact Or.inr ⟨z, List.mem_cons_of_mem x hz, hpz, hyz⟩

lemma map_updateFirst_eq {p : α → Bool} {f : α → α} {β : Type} {proj : α → β}
    (hf : ∀ x, p x = true → proj (f x) = proj x) (l : List α) :
    (updateFirst p f l).map proj = l.map proj := by
  induction l with
  | nil => rfl
  | cons x xs ih =>
    by_cases hx : p x
    · simp [updateFirst, hx, hf x hx]
    · simp [updateFirst, hx, ih]

lemma find?_filter_of_imp {p q : α → Bool} (h : ∀ x, p x = true → q x = true)
    (l : List α) : (l.filter q).find? p = l.find? p := by
  induction l with
  | nil => rfl
  | cons x xs ih =>
    by_cases hpx : p x
    · rw [List.filter_cons, if_pos (h x hpx)]
      simp [List.find?_cons_of_pos _ hpx]
    · rw [List.filter_cons]
      by_cases hqx : q x
      · simp [hqx, List.find?_cons_of_neg _ hpx, ih]
      · simp [hqx, ih, List.find?_cons_of_neg _ hpx]

end UpdateFirstLemmas

lemma find?_filter_neg_self {α : Type} (p : α → Bool) (l : List α) :
    (l.filter (fun x => !(p x))).find? p = none := by
  rw [List.find?_eq_none]
  intro x hx
  have := List.of_mem_filter hx
  simp at this
  simp [this]

/-- C5 (corrected): `delete_kurs` reports a removal exactly when the
triple resolves to a course; when the triple does not resolve it returns
`false` and — provided the addressed module is not an existing *empty*
module — leaves the program entirely unchanged.  (An existing empty
module is cleaned up even though nothing was deleted; see the
counterexample.) -/
theorem delete_kurs_not_found_spec (s : Studiengang) (nr : ℤ) (mname kname : String)
    (h2 : moduleAt s nr mname ≠ some (Modul.mk mname [])) :
    ((delete_kurs s nr mname kname).1 = (find_kurs s nr mname kname).isSome) ∧
      (find_kurs s nr mname kname = none → delete_kurs s nr mname kname = (false, s)) := by
  unfold moduleAt at h2
  unfold delete_kurs find_kurs
  cases hsem : find_semester s nr with
  | none => simp
  | some sem =>
    simp only [hsem] at h2 ⊢
    cases hmod : find_modul sem mname with
    | none => simp
    | some m =>
      simp only [hmod] at h2 ⊢
      have hname : m.name = mname := by
        have := List.find?_some hmod
        simpa using this
      have hkey : decide ((m.kurse.filter (fun k => !(k.name == kname))).length
          < m.kurse.length) = (find_kurs_in m kname).isSome := by
        rw [Bool.eq_iff_iff, decide_eq_true_iff, List.length_filter_lt_length_iff_exists]
        rw [Option.isSome_iff_exists]
        unfold find_kurs_in
        constructor
        · rintro ⟨k, hk, hkname⟩
          simp only [Bool.not_eq_true', Bool.not_eq_false] at hkname
          have hsome : (m.kurse.find? (fun k => k.name == kname)).isSome = true :=
            List.find?_isSome.mpr ⟨k, hk, hkname⟩
          rcases Option.isSome_iff_exists.mp hsome with ⟨a, ha⟩
          exact ⟨a, ha⟩
        · rintro ⟨k, hk⟩
          refine ⟨k, List.mem_of_find?_eq_some hk, ?_⟩
          have := List.find?_some hk
          simp [this]
      constructor
      · split_ifs <;> exact hkey
      · intro hfind
        unfold find_kurs_in at hfind
        have hnone : ∀ k ∈ m.kurse, ¬(k.name == kname) = true :=
          List.find?_eq_none.mp hfind
        have hfilter : m.kurse.filter (fun k => !(k.name == kname)) = m.kurse := by
          rw [List.filter_eq_self]
          intro a ha
          simp [hnone a ha]
        simp only [hfilter]
        have hne : ¬m.kurse.isEmpty = true := by
          intro hemp
          apply h2
          have hkurse : m.kurse = [] := List.isEmpty_iff.mp hemp
          have hm : m = Modul.mk mname [] := by
            cases m
            simp only at hname hkurse
            rw [hname, hkurse]
          rw [hm]
        rw [if_neg hne]
        have hfst : decide (m.kurse.length < m.kurse.length) = false := by
          simp
        rw [hfst]
        refine Prod.ext rfl ?_
        simp only
        unfold updateModul updateSemester
        have hmup : updateFirst (fun mm => mm.name == mname)
            (fun x => { x with kurse := m.kurse }) sem.module = sem.module :=
          updateFirst_eq_self hmod rfl
        have hsup : updateFirst (fun x => x.nummer == nr)
            (fun se => { se with module := (updateFirst (fun mm => mm.name == mname)
              (fun x => { x with kurse := m.kurse }) se.module) })
            s.semester = s.semester := by
          refine updateFirst_eq_self hsem ?_
          show { sem with module := (updateFirst (fun mm => mm.name == mname)
            (fun x => { x with kurse := m.kurse }) sem.module) } = sem
          rw [hmup]
        rw [hsup]

/-- A program whose semester 1 contains the non-empty module "M"
(one course "K1"). -/
def studC5 : Studiengang :=
  Studiengang.mk "S" 0
    [Semester.mk 1 [Modul.mk "M" [Kurs.mk "K1" 5 (Pruefungsleistung.mk "Klausur" none none none) none]]]

/-- C5 witness: deleting the missing course "X" from the non-empty
module "M" reports `false` and leaves the program unchanged. -/
theorem delete_kurs_not_found_spec_witness :
    moduleAt studC5 1 "M" ≠ some (Modul.mk "M" []) ∧
      ((delete_kurs studC5 1 "M" "X").1 = (find_kurs studC5 1 "M" "X").isSome ∧
        (find_kurs studC5 1 "M" "X" = none → delete_kurs studC5 1 "M" "X" = (false, studC5))) :=
  ⟨by decide, delete_kurs_not_found_spec studC5 1 "M" "X" (by decide)⟩

/-- A program whose semester 1 contains an existing *empty* module "M". -/
def studC5b : Studiengang :=
  Studiengang.mk "S" 0 [Semester.mk 1 [Modul.mk "M" []]]

/-- C5 counterexample: deleting the missing course "X" addressed at the
existing empty module "M" returns `false` (no course was found), yet the
program is *not* unchanged — the empty module and the then-empty
semester are removed. -/
theorem delete_kurs_not_noop_counterexample :
    find_kurs studC5b 1 "M" "X" = none ∧
      delete_kurs studC5b 1 "M" "X" = (false, Studiengang.mk "S" 0 []) ∧
      (delete_kurs studC5b 1 "M" "X").2 ≠ studC5b := by
  refine ⟨by decide, by decide, by decide⟩

/-- A single graded course (grade 2.0, ECTS 5). -/
def kursC6b : Kurs := Kurs.mk "K" 5 (Pruefungsleistung.mk "Klausur" (some 2) none none) none

/-- A program containing exactly `kursC6b`. -/
def studC6b : Studiengang :=
  Studiengang.mk "S" 0 [Semester.mk 1 [Modul.mk "M" [kursC6b]]]

/-- C6 witness: a single graded course with nonzero ECTS weight: the
average is that course's grade (rounded to two decimals). -/
theorem durchschnitt_single_graded_witness :
    gradedKurse studC6b = [kursC6b] ∧ studC6b.durchschnitt = some (round2 2) :=
  ⟨by decide, (durchschnitt_single_graded studC6b).2 kursC6b 2
    (by decide) (by decide) (by decide)⟩

lemma find_kurs_name (s : Studiengang) (nr : ℤ) (mname kname : String) (k : Kurs)
    (h : find_kurs s nr mname kname = some k) : k.name = kname := by
  unfold find_kurs at h
  cases hsem : find_semester s nr with
  | none => rw [hsem] at h; cases h
  | some sem =>
    simp only [hsem] at h
    cases hmod : find_modul sem mname with
    | none => rw [hmod] at h; cases h
    | some m =>
      simp only [hmod] at h
      have := List.find?_some h
      simpa using this

lemma insertPhase_mem (s1 : Studiengang) (toSem : ℤ) (toMod : String) (k : Kurs) :
    ∃ sem m, find_semester (insertPhase s1 toSem toMod k) toSem = some sem ∧
      find_modul sem toMod = some m ∧ k ∈ m.kurse := by
  unfold insertPhase
  cases hsem : find_semester s1 toSem with
  | none =>
    refine ⟨Semester.mk toSem [Modul.mk toMod [k]], Modul.mk toMod [k], ?_, ?_, by simp⟩
    · unfold find_semester at hsem ⊢
      simp only
      rw [List.find?_append, hsem]
      simp
    · unfold find_modul
      simp
  | some destSem =>
    cases hmod : find_modul destSem toMod with
    | none =>
      simp only [hmod]
      refine ⟨{ destSem with module := destSem.module ++ [Modul.mk toMod [k]] },
        Modul.mk toMod [k], ?_, ?_, by simp⟩
      · unfold updateSemester
        unfold find_semester at hsem ⊢
        simp only
        rw [@find?_updateFirst_self Semester (fun x => x.nummer == toSem)
          (fun x => { x with module := x.module ++ [Modul.mk toMod [k]] })
          (fun x hx => hx) s1.semester, hsem]
        rfl
      · unfold find_modul at hmod ⊢
        simp only
        rw [List.find?_append, hmod]
        simp
    | some m =>
      simp only [hmod]
      refine ⟨{ destSem with module := (updateFirst (fun mm => mm.name == toMod)
          (fun x => { x with kurse := x.kurse ++ [k] }) destSem.module) },
        { m with kurse := m.kurse ++ [k] }, ?_, ?_, by simp⟩
      · unfold updateModul updateSemester
        unfold find_semester at hsem ⊢
        simp only
        rw [@find?_updateFirst_self Semester (fun x => x.nummer == toSem)
          (fun se => { se with module := (updateFirst (fun mm => mm.name == toMod)
            (fun x => { x with kurse := x.kurse ++ [k] }) se.module) })
          (fun x hx => hx) s1.semester, hsem]
        rfl
      · unfold find_modul at hmod ⊢
        simp only
        rw [@find?_updateFirst_self Modul (fun mm => mm.name == toMod)
          (fun x => { x with kurse := x.kurse ++ [k] })
          (fun x hx => hx) destSem.module, hmod]
        rfl

/-- C8 (confirmed): when the source triple resolves to a course, the move
returns exactly that course (hence its name, ECTS value, start date and
whole embedded performance record are untouched), and the very same
course value is found inside the destination module afterwards; only the
containing module/semester changed. -/
theorem move_kurs_preserves_course (s : Studiengang) (fromSem toSem : ℤ)
    (fromMod kname toMod : String) (k : Kurs)
    (h : find_kurs s fromSem fromMod kname = some k) :
    ∃ s2, move_kurs s fromSem fromMod kname toSem toMod = some (k, s2) ∧
      k.name = kname ∧
      ∃ sem m, find_semester s2 toSem = some sem ∧ find_modul sem toMod = some m ∧
        k ∈ m.kurse := by
  unfold move_kurs
  simp only [h]
  exact ⟨_, rfl, find_kurs_name s fromSem fromMod kname k h,
    insertPhase_mem (removePhase s fromSem fromMod kname) toSem toMod k⟩

/-- The course moved in the C8 witness. -/
def kursC8 : Kurs :=
  Kurs.mk "X" 5 (Pruefungsleistung.mk "Hausarbeit" (some 2) (some 150) (some true)) (some 100)

/-- The witness program for C8: "X" sits in semester 1, module "A". -/
def studC8 : Studiengang :=
  Studiengang.mk "S" 0
    [Semester.mk 1 [Modul.mk "A" [kursC8]],
     Semester.mk 2 [Modul.mk "B" []]]

/-- C8 witness: moving "X" from (1, "A") to (2, "B") returns the course
unchanged and places that very course value in the destination module. -/
theorem move_kurs_preserves_course_witness :
    find_kurs studC8 1 "A" "X" = some kursC8 ∧
      ∃ s2, move_kurs studC8 1 "A" "X" 2 "B" = some (kursC8, s2) ∧
        kursC8.name = "X" ∧
        ∃ sem m, find_semester s2 2 = some sem ∧ find_modul sem "B" = some m ∧
          kursC8 ∈ m.kurse :=
  ⟨by decide, move_kurs_preserves_course studC8 1 2 "A" "X" "B" kursC8 (by decide)⟩

/-- Module well-formedness: course names unique within the module. -/
def Modul.wf (m : Modul) : Prop := (m.kurse.map (fun k => k.name)).Nodup

/-- Semester well-formedness: module names unique, each module wf. -/
def Semester.wf (sem : Semester) : Prop :=
  (sem.module.map (fun m => m.name)).Nodup ∧ ∀ m ∈ sem.module, m.wf

/-- Program well-formedness: semester numbers unique, each semester wf. -/
def Studiengang.wf (s : Studiengang) : Prop :=
  (s.semester.map (fun x => x.nummer)).Nodup ∧ ∀ sem ∈ s.semester, sem.wf

/-- All (semester number, module name, course name) identity triples of
the program, one entry per course occurrence. -/
def semTriples (sem : Semester) : List (ℤ × String × String) :=
  sem.module.flatMap (fun m => m.kurse.map (fun k => (sem.nummer, m.name, k.name)))

/-- The identity triples of every course in the program.  The spec's
identity invariant — each triple resolves to at most one course — is
`(allTriples s).Nodup`. -/
def allTriples (s : Studiengang) : List (ℤ × String × String) :=
  s.semester.flatMap semTriples

lemma mem_semTriples {sem : Semester} {t : ℤ × String × String}
    (ht : t ∈ semTriples sem) : t.1 = sem.nummer := by
  unfold semTriples at ht
  simp only [List.mem_flatMap, List.mem_map] at ht
  rcases ht with ⟨m, _, k, _, rfl⟩
  rfl

lemma semTriples_nodup {sem : Semester} (h : sem.wf) : (semTriples sem).Nodup := by
  unfold semTriples
  rw [List.nodup_flatMap]
  constructor
  · intro m hm
    have hmwf : (m.kurse.map (fun k => k.name)).Nodup := h.2 m hm
    have hrw : (m.kurse.map (fun k => (sem.nummer, m.name, k.name))) =
        (m.kurse.map (fun k => k.name)).map (fun nm => (sem.nummer, m.name, nm)) := by
      rw [List.map_map]
      rfl
    rw [hrw]
    refine hmwf.map ?_
    intro a b hab
    simpa using hab
  · have hpw : List.Pairwise (fun a b => a.name ≠ b.name) sem.module :=
      List.pairwise_map.mp h.1
    refine hpw.imp ?_
    intro m1 m2 hne t ht1 ht2
    simp only [List.mem_map] at ht1 ht2
    rcases ht1 with ⟨k1, _, rfl⟩
    rcases ht2 with ⟨k2, _, ht⟩
    exact hne (by simpa using congrArg (fun q => q.2.1) ht.symm)

/-- Well-formedness implies the spec's identity invariant: every triple
resolves to at most one course. -/
lemma wf_allTriples_nodup {s : Studiengang} (h : s.wf) : (allTriples s).Nodup := by
  unfold allTriples
  rw [List.nodup_flatMap]
  constructor
  · intro sem hsem
    exact semTriples_nodup (h.2 sem hsem)
  · have hpw : List.Pairwise (fun a b => a.nummer ≠ b.nummer) s.semester :=
      List.pairwise_map.mp h.1
    refine hpw.imp ?_
    intro s1 s2 hne t ht1 ht2
    have e1 := mem_semTriples ht1
    have e2 := mem_semTriples ht2
    exact hne (e1 ▸ e2 ▸ rfl)

lemma eq_of_find_semester {s : Studiengang} (h : s.wf) {nr : ℤ} {sem : Semester}
    (hfind : find_semester s nr = some sem) :
    ∀ x ∈ s.semester, x.nummer = nr → x = sem := by
  intro x hx hnum
  have hsm : sem ∈ s.semester := List.mem_of_find?_eq_some hfind
  have hsn : sem.nummer = nr := by simpa using List.find?_some hfind
  exact List.inj_on_of_nodup_map h.1 hx hsm (by rw [hnum, hsn])

lemma eq_of_find_modul {sem : Semester} (h : sem.wf) {mname : String} {m : Modul}
    (hfind : find_modul sem mname = some m) :
    ∀ x ∈ sem.module, x.name = mname → x = m := by
  intro x hx hname
  have hmm : m ∈ sem.module := List.mem_of_find?_eq_some hfind
  have hmn : m.name = mname := by simpa using List.find?_some hfind
  exact List.inj_on_of_nodup_map h.1 hx hmm (by rw [hname, hmn])

lemma updateFirst_eq_append {α : Type} {p : α → Bool} {l : List α} {a : α}
    (h : l.find? p = some a) (f : α → α) :
    ∃ l1 l2, l = l1 ++ a :: l2 ∧ (∀ x ∈ l1, p x = false) ∧
      updateFirst p f l = l1 ++ f a :: l2 := by
  induction l with
  | nil => simp at h
  | cons x xs ih =>
    by_cases hx : p x
    · rw [List.find?_cons_of_pos _ hx] at h
      cases h
      exact ⟨[], xs, rfl, by simp, by simp [updateFirst, hx]⟩
    · rw [List.find?_cons_of_neg _ hx] at h
      rcases ih h with ⟨l1, l2, he, hl1, hu⟩
      refine ⟨x :: l1, l2, by rw [he]; rfl, ?_, ?_⟩
      · intro y hy
        rcases List.mem_cons.mp hy with rfl | hy2
        · simpa using hx
        · exact hl1 y hy2
      · simp [updateFirst, hx, hu]

lemma updateSemester_wf {s : Studiengang} {nr : ℤ} {f : Semester → Semester}
    (h : s.wf) (hnum : ∀ x, (f x).nummer = x.nummer)
    (hwf : ∀ x ∈ s.semester, x.nummer = nr → x.wf → (f x).wf) :
    (updateSemester s nr f).wf := by
  unfold updateSemester
  constructor
  · show ((updateFirst (fun x => x.nummer == nr) f s.semester).map
      (fun x => x.nummer)).Nodup
    rw [map_updateFirst_eq (fun x _ => hnum x)]
    exact h.1
  · intro sem hsem
    rcases mem_updateFirst s.semester sem hsem with h1 | ⟨x, hx, hpx, rfl⟩
    · exact h.2 sem h1
    · exact hwf x hx (by simpa using hpx) (h.2 x hx)

lemma module_list_wf_update {sem : Semester} {mname : String} {f : Modul → Modul}
    (h : sem.wf) (hname : ∀ x, (f x).name = x.name)
    (hwf : ∀ x ∈ sem.module, x.name = mname → x.wf → (f x).wf) :
    (Semester.mk sem.nummer (updateFirst (fun m => m.name == mname) f sem.module)).wf := by
  constructor
  · show ((updateFirst (fun m => m.name == mname) f sem.module).map
      (fun m => m.name)).Nodup
    rw [map_updateFirst_eq (fun x _ => hname x)]
    exact h.1
  · intro m hm
    rcases mem_updateFirst sem.module m hm with h1 | ⟨x, hx, hpx, rfl⟩
    · exact h.2 m h1
    · exact hwf x hx (by simpa using hpx) (h.2 x hx)

lemma add_modul_wf (s : Studiengang) (nr : ℤ) (mname : String) (h : s.wf) :
    (add_modul s nr mname).wf := by
  unfold add_modul
  cases hsem : find_semester s nr with
  | none =>
    constructor
    · show ((s.semester ++ [Semester.mk nr [Modul.mk mname []]]).map
        (fun x => x.nummer)).Nodup
      rw [List.map_append, List.nodup_append]
      refine ⟨h.1, by simp, ?_⟩
      intro a ha hb
      simp only [List.map_cons, List.map_nil, List.mem_singleton] at hb
      subst hb
      unfold find_semester at hsem
      rw [List.find?_eq_none] at hsem
      rcases List.mem_map.mp ha with ⟨x, hx, hxa⟩
      exact hsem x hx (by simp [hxa])
    · intro sem hsem2
      rcases List.mem_append.mp hsem2 with h1 | h1
      · exact h.2 sem h1
      · rw [List.mem_singleton] at h1
        subst h1
        exact ⟨by simp, by intro m hm; rw [List.mem_singleton] at hm; subst hm; simp [Modul.wf]⟩
  | some sem =>
    simp only [hsem]
    cases hmod : find_modul sem mname with
    | some m => exact h
    | none =>
      simp only [hmod]
      refine updateSemester_wf h (fun x => rfl) ?_
      intro x hx hnum hxwf
      have hxeq : x = sem := eq_of_find_semester h hsem x hx hnum
      subst hxeq
      constructor
      · show ((x.module ++ [Modul.mk mname []]).map (fun m => m.name)).Nodup
        rw [List.map_append, List.nodup_append]
        refine ⟨hxwf.1, by simp, ?_⟩
        intro a ha hb
        simp only [List.map_cons, List.map_nil, List.mem_singleton] at hb
        subst hb
        unfold find_modul at hmod
        rw [List.find?_eq_none] at hmod
        rcases List.mem_map.mp ha with ⟨y, hy, hya⟩
        exact hmod y hy (by simp [hya])
      · intro m2 hm2
        rcases List.mem_append.mp hm2 with h1 | h1
        · exact hxwf.2 m2 h1
        · rw [List.mem_singleton] at h1
          subst h1
          simp [Modul.wf]

lemma add_kurs_wf (m : Modul) (kname : String) (ects : ℚ) (art : String) (sd : Option ℤ)
    (h : m.wf) : (add_kurs m kname ects art sd).wf := by
  unfold add_kurs
  cases hf : find_kurs_in m kname with
  | some k => exact h
  | none =>
    unfold Modul.wf at h ⊢
    show ((m.kurse ++ [Kurs.mk kname ects (Pruefungsleistung.mk art none none none) sd]).map
      (fun k => k.name)).Nodup
    rw [List.map_append, List.nodup_append]
    refine ⟨h, by simp, ?_⟩
    intro a ha hb
    simp only [List.map_cons, List.map_nil, List.mem_singleton] at hb
    subst hb
    unfold find_kurs_in at hf
    rw [List.find?_eq_none] at hf
    rcases List.mem_map.mp ha with ⟨k2, hk2, hka⟩
    exact hf k2 hk2 (by simp [hka])

lemma add_kurs_name (m : Modul) (kname : String) (ects : ℚ) (art : String) (sd : Option ℤ) :
    (add_kurs m kname ects art sd).name = m.name := by
  unfold add_kurs
  cases find_kurs_in m kname <;> rfl

lemma add_kurs_prog_wf (s : Studiengang) (nr : ℤ) (mname kname : String) (ects : ℚ)
    (art : String) (sd : Option ℤ) (h : s.wf) : (add_kurs_prog s nr mname kname ects art sd).wf := by
  unfold add_kurs_prog updateModul
  refine updateSemester_wf (add_modul_wf s nr mname h) (fun x => rfl) ?_
  intro x hx hnum hxwf
  exact module_list_wf_update hxwf (fun y => add_kurs_name y kname ects art sd)
    (fun y hy hyn hywf => add_kurs_wf y kname ects art sd hywf)

lemma update_kurs_wf (s : Studiengang) (nr : ℤ) (mname kname : String) {f : Kurs → Kurs}
    (hf : ∀ k, (f k).name = k.name) (h : s.wf) : (update_kurs s nr mname kname f).wf := by
  unfold update_kurs updateModul
  refine updateSemester_wf h (fun x => rfl) ?_
  intro x hx hnum hxwf
  refine module_list_wf_update hxwf (fun y => rfl) ?_
  intro y hy hyn hywf
  unfold Modul.wf at hywf ⊢
  show ((updateFirst (fun k => k.name == kname) f y.kurse).map (fun k => k.name)).Nodup
  rw [map_updateFirst_eq (fun k _ => hf k)]
  exact hywf

lemma filter_semester_wf (s : Studiengang) (q : Semester → Bool) (h : s.wf) :
    (Studiengang.mk s.name s.startdatum (s.semester.filter q)).wf := by
  constructor
  · show (((s.semester.filter q)).map (fun x => x.nummer)).Nodup
    exact ((List.filter_sublist s.semester).map (fun x => x.nummer)).nodup h.1
  · intro sem hsem
    exact h.2 sem (List.mem_of_mem_filter hsem)

lemma delete_kurs_wf (s : Studiengang) (nr : ℤ) (mname kname : String) (h : s.wf) :
    ((delete_kurs s nr mname kname).2).wf := by
  unfold delete_kurs
  cases hsem : find_semester s nr with
  | none => exact h
  | some sem =>
    simp only [hsem]
    cases hmod : find_modul sem mname with
    | none => exact h
    | some m =>
      simp only [hmod]
      have hsemwf : sem.wf := h.2 sem (List.mem_of_find?_eq_some hsem)
      have hmwf : m.wf := hsemwf.2 m (List.mem_of_find?_eq_some hmod)
      split
      · split
        · exact filter_semester_wf s _ h
        · refine updateSemester_wf h (fun x => rfl) ?_
          intro x hx hnum hxwf
          constructor
          · show ((sem.module.filter (fun x => !(x.name == mname))).map
              (fun m => m.name)).Nodup
            exact ((List.filter_sublist sem.module).map (fun m => m.name)).nodup hsemwf.1
          · intro m2 hm2
            exact hsemwf.2 m2 (List.mem_of_mem_filter hm2)
      · unfold updateModul
        refine updateSemester_wf h (fun x => rfl) ?_
        intro x hx hnum hxwf
        refine module_list_wf_update hxwf (fun y => rfl) ?_
        intro y hy hyn hywf
        unfold Modul.wf
        show ((m.kurse.filter (fun k => !(k.name == kname))).map (fun k => k.name)).Nodup
        have hmk : (m.kurse.map (fun k => k.name)).Nodup := hmwf
        exact ((List.filter_sublist m.kurse).map (fun k => k.name)).nodup hmk

lemma removePhase_wf (s : Studiengang) (fromSem : ℤ) (fromMod kname : String) (h : s.wf) :
    (removePhase s fromSem fromMod kname).wf := by
  unfold removePhase
  cases hsem : find_semester s fromSem with
  | none => exact h
  | some sem =>
    simp only [hsem]
    cases hmod : find_modul sem fromMod with
    | none => exact h
    | some m =>
      simp only [hmod]
      have hsemwf : sem.wf := h.2 sem (List.mem_of_find?_eq_some hsem)
      have hmwf : m.wf := hsemwf.2 m (List.mem_of_find?_eq_some hmod)
      split
      · split
        · exact filter_semester_wf s _ h
        · refine updateSemester_wf h (fun x => rfl) ?_
          intro x hx hnum hxwf
          constructor
          · show ((sem.module.filter (fun x => !(x.name == fromMod))).map
              (fun m => m.name)).Nodup
            exact ((List.filter_sublist sem.module).map (fun m => m.name)).nodup hsemwf.1
          · intro m2 hm2
            exact hsemwf.2 m2 (List.mem_of_mem_filter hm2)
      · unfold updateModul
        refine updateSemester_wf h (fun x => rfl) ?_
        intro x hx hnum hxwf
        refine module_list_wf_update hxwf (fun y => rfl) ?_
        intro y hy hyn hywf
        unfold Modul.wf
        show ((m.kurse.filter (fun k => !(k.name == kname))).map (fun k => k.name)).Nodup
        have hmk : (m.kurse.map (fun k => k.name)).Nodup := hmwf
        exact ((List.filter_sublist m.kurse).map (fun k => k.name)).nodup hmk

/-- No course with the given name sits in any module of the given name
inside any semester of the given number. -/
def NoCourseAt (s : Studiengang) (nr : ℤ) (mname kname : String) : Prop :=
  ∀ sem ∈ s.semester, sem.nummer = nr → ∀ m ∈ sem.module, m.name = mname →
    ∀ k ∈ m.kurse, k.name ≠ kname

lemma noCourseAt_of_find_none {s : Studiengang} {nr : ℤ} {mname kname : String}
    (h : s.wf) (hf : find_kurs s nr mname kname = none) : NoCourseAt s nr mname kname := by
  intro sem hsem hnum m hm hname k hk
  unfold find_kurs at hf
  cases hfs : find_semester s nr with
  | none =>
    unfold find_semester at hfs
    rw [List.find?_eq_none] at hfs
    exact absurd (by simp [hnum]) (hfs sem hsem)
  | some sem0 =>
    simp only [hfs] at hf
    have hseq : sem = sem0 := eq_of_find_semester h hfs sem hsem hnum
    subst hseq
    cases hfm : find_modul sem mname with
    | none =>
      unfold find_modul at hfm
      rw [List.find?_eq_none] at hfm
      exact absurd (by simp [hname]) (hfm m hm)
    | some m0 =>
      simp only [hfm] at hf
      have hmeq : m = m0 := eq_of_find_modul (h.2 sem hsem) hfm m hm hname
      subst hmeq
      unfold find_kurs_in at hf
      rw [List.find?_eq_none] at hf
      intro hkk
      exact (hf k hk) (by simp [hkk])

lemma removePhase_contained (s : Studiengang) (fs : ℤ) (fm c : String) :
    ∀ sem2 ∈ (removePhase s fs fm c).semester, ∀ m2 ∈ sem2.module, ∀ k2 ∈ m2.kurse,
      ∃ sem ∈ s.semester, ∃ m ∈ sem.module,
        sem2.nummer = sem.nummer ∧ m2.name = m.name ∧ k2 ∈ m.kurse := by
  unfold removePhase
  cases hsem : find_semester s fs with
  | none =>
    intro sem2 h2 m2 hm2 k2 hk2
    exact ⟨sem2, h2, m2, hm2, rfl, rfl, hk2⟩
  | some oldSem =>
    simp only [hsem]
    have hOldSemMem : oldSem ∈ s.semester := List.mem_of_find?_eq_some hsem
    have hOldSemNum : oldSem.nummer = fs := by simpa using List.find?_some hsem
    cases hmod : find_modul oldSem fm with
    | none =>
      intro sem2 h2 m2 hm2 k2 hk2
      exact ⟨sem2, h2, m2, hm2, rfl, rfl, hk2⟩
    | some oldMod =>
      simp only [hmod]
      have hOldModMem : oldMod ∈ oldSem.module := List.mem_of_find?_eq_some hmod
      have hOldModName : oldMod.name = fm := by simpa using List.find?_some hmod
      split
      · split
        · intro sem2 h2 m2 hm2 k2 hk2
          exact ⟨sem2, List.mem_of_mem_filter h2, m2, hm2, rfl, rfl, hk2⟩
        · intro sem2 h2 m2 hm2 k2 hk2
          simp only [updateSemester] at h2
          rcases mem_updateFirst s.semester sem2 h2 with h3 | ⟨x, hx, hpx, rfl⟩
          · exact ⟨sem2, h3, m2, hm2, rfl, rfl, hk2⟩
          · have hm2o : m2 ∈ oldSem.module := List.mem_of_mem_filter hm2
            refine ⟨oldSem, hOldSemMem, m2, hm2o, ?_, rfl, hk2⟩
            have hxn : x.nummer = fs := by simpa using hpx
            show x.nummer = oldSem.nummer
            rw [hxn, hOldSemNum]
      · intro sem2 h2 m2 hm2 k2 hk2
        simp only [updateModul, updateSemester] at h2
        rcases mem_updateFirst s.semester sem2 h2 with h3 | ⟨x, hx, hpx, rfl⟩
        · exact ⟨sem2, h3, m2, hm2, rfl, rfl, hk2⟩
        · rcases mem_updateFirst x.module m2 hm2 with h4 | ⟨y, hy4, hpy, rfl⟩
          · exact ⟨x, hx, m2, h4, rfl, rfl, hk2⟩
          · have hk2o : k2 ∈ oldMod.kurse := List.mem_of_mem_filter hk2
            refine ⟨oldSem, hOldSemMem, oldMod, hOldModMem, ?_, ?_, hk2o⟩
            · have hxn : x.nummer = fs := by simpa using hpx
              show x.nummer = oldSem.nummer
              rw [hxn, hOldSemNum]
            · have hyn : y.name = fm := by simpa using hpy
              show y.name = oldMod.name
              rw [hyn, hOldModName]

lemma NoCourseAt_removePhase {s : Studiengang} {nr : ℤ} {mname kname : String}
    (h : NoCourseAt s nr mname kname) (fs : ℤ) (fm c : String) :
    NoCourseAt (removePhase s fs fm c) nr mname kname := by
  intro sem2 h2 hnum m2 hm2 hname k2 hk2
  rcases removePhase_contained s fs fm c sem2 h2 m2 hm2 k2 hk2 with
    ⟨sem, hsem, m, hm, e1, e2, hk⟩
  exact h sem hsem (by rw [← e1, hnum]) m hm (by rw [← e2, hname]) k2 hk

lemma proj_clash {α β : Type} {proj : α → β} {l1 l2 : List α} {a x : α}
    (h : ((l1 ++ a :: l2).map proj).Nodup) (hx : x ∈ l2) (he : proj x = proj a) : False := by
  rw [List.map_append, List.map_cons] at h
  have h2 := h.of_append_right
  rw [List.nodup_cons] at h2
  exact h2.1 (he ▸ List.mem_map_of_mem proj hx)

lemma removePhase_NoCourseAt_self {s : Studiengang} (h : s.wf) (fs : ℤ) (fm c : String) :
    NoCourseAt (removePhase s fs fm c) fs fm c := by
  unfold removePhase
  cases hsem : find_semester s fs with
  | none =>
    intro sem2 h2 hnum m2 hm2 hname k2 hk2
    unfold find_semester at hsem
    rw [List.find?_eq_none] at hsem
    exact absurd (by simp [hnum]) (hsem sem2 h2)
  | some oldSem =>
    simp only [hsem]
    have hOldSemNum : oldSem.nummer = fs := by simpa using List.find?_some hsem
    cases hmod : find_modul oldSem fm with
    | none =>
      intro sem2 h2 hnum m2 hm2 hname k2 hk2
      have he : sem2 = oldSem := eq_of_find_semester h hsem sem2 h2 hnum
      subst he
      unfold find_modul at hmod
      rw [List.find?_eq_none] at hmod
      exact absurd (by simp [hname]) (hmod m2 hm2)
    | some oldMod =>
      simp only [hmod]
      have hOldModName : oldMod.name = fm := by simpa using List.find?_some hmod
      have hOldSemWf : oldSem.wf := h.2 oldSem (List.mem_of_find?_eq_some hsem)
      split
      · split
        · intro sem2 h2 hnum m2 hm2 hname k2 hk2
          have hq := List.of_mem_filter h2
          simp [hnum] at hq
        · intro sem2 h2 hnum m2 hm2 hname k2 hk2
          simp only [updateSemester] at h2
          rcases updateFirst_eq_append hsem
            (fun x => { x with module := (oldSem.module.filter
              (fun m => !(m.name == fm))) }) with ⟨l1, l2, hl, hl1, hu⟩
          rw [hu] at h2
          rcases List.mem_append.mp h2 with h3 | h3
          · have := hl1 sem2 h3
            simp [hnum] at this
          · rcases List.mem_cons.mp h3 with rfl | h4
            · have := List.of_mem_filter hm2
              simp [hname] at this
            · have hnn : ((l1 ++ oldSem :: l2).map (fun x => x.nummer)).Nodup := by
                rw [← hl]; exact h.1
              exact (proj_clash hnn h4 (hnum.trans hOldSemNum.symm)).elim
      · intro sem2 h2 hnum m2 hm2 hname k2 hk2
        simp only [updateModul, updateSemester] at h2
        rcases updateFirst_eq_append hsem
          (fun sem => { sem with module := (updateFirst (fun m => m.name == fm)
            (fun m => { m with kurse := (oldMod.kurse.filter (fun k => !(k.name == c))) })
            sem.module) }) with ⟨l1, l2, hl, hl1, hu⟩
        rw [hu] at h2
        rcases List.mem_append.mp h2 with h3 | h3
        · have := hl1 sem2 h3
          simp [hnum] at this
        · rcases List.mem_cons.mp h3 with rfl | h4
          · rcases updateFirst_eq_append hmod
              (fun m => { m with kurse := (oldMod.kurse.filter
                (fun k => !(k.name == c))) }) with ⟨m1, m2l, hml, hm1, hmu⟩
            have hm2' : m2 ∈ updateFirst (fun m => m.name == fm)
                (fun m => { m with kurse := (oldMod.kurse.filter
                  (fun k => !(k.name == c))) })
                oldSem.module := hm2
            rw [hmu] at hm2'
            rcases List.mem_append.mp hm2' with h5 | h5
            · have := hm1 m2 h5
              simp [hname] at this
            · rcases List.mem_cons.mp h5 with rfl | h6
              · have := List.of_mem_filter hk2
                simpa using this
              · have hnn : ((m1 ++ oldMod :: m2l).map (fun m => m.name)).Nodup := by
                  rw [← hml]; exact hOldSemWf.1
                exact (proj_clash hnn h6 (hname.trans hOldModName.symm)).elim
          · have hnn : ((l1 ++ oldSem :: l2).map (fun x => x.nummer)).Nodup := by
              rw [← hl]; exact h.1
            exact (proj_clash hnn h4 (hnum.trans hOldSemNum.symm)).elim

lemma insertPhase_wf {s1 : Studiengang} (h : s1.wf) {toSem : ℤ} {toMod : String} {k : Kurs}
    (hno : NoCourseAt s1 toSem toMod k.name) : (insertPhase s1 toSem toMod k).wf := by
  unfold insertPhase
  cases hsem : find_semester s1 toSem with
  | none =>
    constructor
    · show ((s1.semester ++ [Semester.mk toSem [Modul.mk toMod [k]]]).map
        (fun x => x.nummer)).Nodup
      rw [List.map_append, List.nodup_append]
      refine ⟨h.1, by simp, ?_⟩
      intro a ha hb
      simp only [List.map_cons, List.map_nil, List.mem_singleton] at hb
      subst hb
      unfold find_semester at hsem
      rw [List.find?_eq_none] at hsem
      rcases List.mem_map.mp ha with ⟨x, hx, hxa⟩
      exact hsem x hx (by simp [hxa])
    · intro sem hsem2
      rcases List.mem_append.mp hsem2 with h1 | h1
      · exact h.2 sem h1
      · rw [List.mem_singleton] at h1
        subst h1
        refine ⟨by simp, ?_⟩
        intro m hm
        rw [List.mem_singleton] at hm
        subst hm
        simp [Modul.wf]
  | some destSem =>
    simp only [hsem]
    cases hmod : find_modul destSem toMod with
    | none =>
      simp only [hmod]
      refine updateSemester_wf h (fun x => rfl) ?_
      intro x hx hnum hxwf
      have hxe : x = destSem := eq_of_find_semester h hsem x hx hnum
      subst hxe
      constructor
      · show ((x.module ++ [Modul.mk toMod [k]]).map (fun m => m.name)).Nodup
        rw [List.map_append, List.nodup_append]
        refine ⟨hxwf.1, by simp, ?_⟩
        intro a ha hb
        simp only [List.map_cons, List.map_nil, List.mem_singleton] at hb
        subst hb
        unfold find_modul at hmod
        rw [List.find?_eq_none] at hmod
        rcases List.mem_map.mp ha with ⟨y, hy, hya⟩
        exact hmod y hy (by simp [hya])
      · intro m2 hm2
        rcases List.mem_append.mp hm2 with h1 | h1
        · exact hxwf.2 m2 h1
        · rw [List.mem_singleton] at h1
          subst h1
          simp [Modul.wf]
    | some m =>
      simp only [hmod]
      unfold updateModul
      refine updateSemester_wf h (fun x => rfl) ?_
      intro x hx hnum hxwf
      refine module_list_wf_update hxwf (fun y => rfl) ?_
      intro y hy hyn hywf
      unfold Modul.wf at hywf ⊢
      show ((y.kurse ++ [k]).map (fun kk => kk.name)).Nodup
      rw [List.map_append, List.nodup_append]
      refine ⟨hywf, by simp, ?_⟩
      intro a ha hb
      simp only [List.map_cons, List.map_nil, List.mem_singleton] at hb
      subst hb
      rcases List.mem_map.mp ha with ⟨k2, hk2, hka⟩
      exact hno x hx hnum y hy hyn k2 hk2 hka

lemma move_kurs_wf {s : Studiengang} (h : s.wf) {fromSem toSem : ℤ}
    {fromMod kname toMod : String} {k : Kurs} {s2 : Studiengang}
    (hmv : move_kurs s fromSem fromMod kname toSem toMod = some (k, s2))
    (hside : find_kurs s toSem toMod kname = none ∨ (fromSem = toSem ∧ fromMod = toMod)) :
    s2.wf := by
  unfold move_kurs at hmv
  cases hfk : find_kurs s fromSem fromMod kname with
  | none => rw [hfk] at hmv; cases hmv
  | some k0 =>
    simp only [hfk] at hmv
    have hk0 : k0 = k := congrArg Prod.fst (Option.some.inj hmv)
    subst hk0
    have hs2 : s2 = insertPhase (removePhase s fromSem fromMod kname) toSem toMod k0 :=
      (congrArg Prod.snd (Option.some.inj hmv)).symm
    subst hs2
    have hname : k0.name = kname := find_kurs_name s fromSem fromMod kname k0 hfk
    have h1 : (removePhase s fromSem fromMod kname).wf :=
      removePhase_wf s fromSem fromMod kname h
    have h2 : NoCourseAt (removePhase s fromSem fromMod kname) toSem toMod k0.name := by
      rw [hname]
      rcases hside with hnone | ⟨rfl, rfl⟩
      · exact NoCourseAt_removePhase (noCourseAt_of_find_none h hnone) fromSem fromMod kname
      · exact removePhase_NoCourseAt_self h fromSem fromMod kname
    exact insertPhase_wf h1 h2

instance (m : Modul) : Decidable m.wf := by
  unfold Modul.wf
  infer_instance

instance (sem : Semester) : Decidable sem.wf := by
  unfold Semester.wf
  infer_instance

instance (s : Studiengang) : Decidable s.wf := by
  unfold Studiengang.wf
  infer_instance

/-- C7 (corrected): starting from a program with unique semester numbers,
unique module names per semester and unique course names per module
(which implies the identity invariant: the triple list has no
duplicates), the registry operations `add_modul`, `add_kurs`,
`delete_kurs`, `record_grade` and `record_passed` preserve this
uniqueness; `move_kurs` preserves it only under the extra condition that
the destination triple is free (or the move stays within the source
module) — moving a course into a destination module that already holds a
course of the same name breaks the invariant (see the counterexample). -/
theorem registry_preserves_identity_invariant (s : Studiengang) (h : s.wf)
    (nr fromSem toSem : ℤ) (mname kname fromMod toMod mvName : String)
    (ects : ℚ) (art : String) (sd : Option ℤ) (g : ℚ) (b : Bool) :
    (∀ s3 : Studiengang, s3.wf → (allTriples s3).Nodup) ∧
      (add_modul s nr mname).wf ∧
      (add_kurs_prog s nr mname kname ects art sd).wf ∧
      ((delete_kurs s nr mname kname).2).wf ∧
      (record_grade_prog s nr mname kname g).wf ∧
      (record_passed_prog s nr mname kname b).wf ∧
      (∀ k s2, move_kurs s fromSem fromMod mvName toSem toMod = some (k, s2) →
        (find_kurs s toSem toMod mvName = none ∨ (fromSem = toSem ∧ fromMod = toMod)) →
          s2.wf ∧ (allTriples s2).Nodup) := by
  refine ⟨fun s3 h3 => wf_allTriples_nodup h3, add_modul_wf s nr mname h,
    add_kurs_prog_wf s nr mname kname ects art sd h,
    delete_kurs_wf s nr mname kname h,
    update_kurs_wf s nr mname kname (fun k => rfl) h,
    update_kurs_wf s nr mname kname (fun k => rfl) h, ?_⟩
  intro k s2 hmv hside
  have hwf2 := move_kurs_wf h hmv hside
  exact ⟨hwf2, wf_allTriples_nodup hwf2⟩

/-- Witness program for C7: "X" in (1, "A"), empty module (2, "B"). -/
def studC7w : Studiengang :=
  Studiengang.mk "S" 0
    [Semester.mk 1 [Modul.mk "A" [Kurs.mk "X" 5 (Pruefungsleistung.mk "Klausur" none none none) none]],
     Semester.mk 2 [Modul.mk "B" []]]

/-- C7 witness: the registry operations applied to a concrete
well-formed program. -/
theorem registry_preserves_identity_invariant_witness :
    studC7w.wf ∧
      ((∀ s3 : Studiengang, s3.wf → (allTriples s3).Nodup) ∧
        (add_modul studC7w 1 "M").wf ∧
        (add_kurs_prog studC7w 1 "M" "K" 5 "Klausur" none).wf ∧
        ((delete_kurs studC7w 1 "M" "K").2).wf ∧
        (record_grade_prog studC7w 1 "M" "K" 2).wf ∧
        (record_passed_prog studC7w 1 "M" "K" true).wf ∧
        (∀ k s2, move_kurs studC7w 1 "A" "X" 2 "B" = some (k, s2) →
          (find_kurs studC7w 2 "B" "X" = none ∨ ((1 : ℤ) = 2 ∧ "A" = "B")) →
            s2.wf ∧ (allTriples s2).Nodup)) :=
  ⟨by decide, registry_preserves_identity_invariant studC7w (by decide)
    1 1 2 "M" "K" "A" "B" "X" 5 "Klausur" none 2 true⟩

/-- The course moved in the C7 counterexample (lives in (1, "A")). -/
def kursC7a : Kurs := Kurs.mk "X" 5 (Pruefungsleistung.mk "Klausur" none none none) none

/-- A distinct course with the same name in the destination (2, "B"). -/
def kursC7b : Kurs := Kurs.mk "X" 3 (Pruefungsleistung.mk "Hausarbeit" none none none) none

/-- Counterexample program: the triple (2, "B", "X") is already taken. -/
def studC7 : Studiengang :=
  Studiengang.mk "S" 0
    [Semester.mk 1 [Modul.mk "A" [kursC7a]],
     Semester.mk 2 [Modul.mk "B" [kursC7b]]]

/-- C7 counterexample: `studC7` satisfies the identity invariant (its
triple list has no duplicates), yet after `move_kurs` of "X" from
(1, "A") into (2, "B") — whose module already holds a course named "X" —
the destination module holds two courses named "X", so the triple
(2, "B", "X") resolves to two courses and the invariant is broken. -/
theorem move_kurs_breaks_identity_counterexample :
    (allTriples studC7).Nodup ∧
      move_kurs studC7 1 "A" "X" 2 "B" =
        some (kursC7a, Studiengang.mk "S" 0 [Semester.mk 2 [Modul.mk "B" [kursC7b, kursC7a]]]) ∧
      ¬(allTriples (Studiengang.mk "S" 0
          [Semester.mk 2 [Modul.mk "B" [kursC7b, kursC7a]]])).Nodup := by
  refine ⟨by decide, by decide, by decide⟩
